import Mathlib

/-!
# Windborne constellation dashboard — verification of the core engine

Shallow embedding of the data-processing core of `src/app.js`:
snapshot parsing and aggregation (`fetchData`), fleet analysis
(`analyzeFleet`), the haversine distance (`getHaversineDistance`),
the pressure-level selection (`getWind`), and the correlation score.

JavaScript numbers are modelled as follows: finite values are rationals
(or reals in the trigonometric analysis layer), and the special values
`NaN`, `Infinity`, `-Infinity` and `undefined` are explicit constructors
of the wire-value type.  Network effects are modelled by passing fetch
results (`Option Json`, `none` = failed fetch) and a wind oracle as
explicit inputs; all model functions are total, mirroring the source's
policy of absorbing every failure (`catch` clauses) rather than raising.
-/

namespace Windborne

/-- A JavaScript number: `NaN`, `±Infinity`, or a finite value
(modelled as a rational). -/
inductive JsNum where
  | nan : JsNum
  | inf : JsNum
  | ninf : JsNum
  | fin (q : ℚ) : JsNum
deriving DecidableEq

/-- A JavaScript value as seen by the script: the JSON constructors plus
`undefined` (the result of a missing property or array slot). -/
inductive Json where
  | undefined : Json
  | null : Json
  | bool (b : Bool) : Json
  | num (n : JsNum) : Json
  | str (s : String) : Json
  | arr (xs : List Json) : Json
  | obj (fields : List (String × Json)) : Json

/-- JavaScript truthiness of a value (`if (pt)` in the source). -/
def Json.truthy : Json → Bool
  | .undefined => false
  | .null => false
  | .bool b => b
  | .num .nan => false
  | .num .inf => true
  | .num .ninf => true
  | .num (.fin q) => decide (q ≠ 0)
  | .str s => decide (s ≠ "")
  | .arr _ => true
  | .obj _ => true

/-- Property access `v.key`: the field's value on an object that has it,
`undefined` otherwise (including on every non-object). -/
def getField (v : Json) (key : String) : Json :=
  match v with
  | .obj fields =>
    match fields.find? (fun kv => kv.1 == key) with
    | some kv => kv.2
    | none => .undefined
  | _ => .undefined

/-- Array destructuring slot `i`: the element when present, else
`undefined`. -/
def slot (xs : List Json) (i : ℕ) : Json :=
  (xs[i]?).getD .undefined

/-- `src/app.js` lines 85–88: extract `(lat, lon, alt)` from one snapshot
element, handling both the positional `[lat, lon, alt]` shape and the
keyed `{lat, lon, alt}` shape; a falsy element leaves all three
`undefined`. -/
def extractCoords (pt : Json) : Json × Json × Json :=
  match pt with
  | .arr xs => (slot xs 0, slot xs 1, slot xs 2)
  | v => if v.truthy then (getField v "lat", getField v "lon", getField v "alt")
         else (.undefined, .undefined, .undefined)

/-- `src/app.js` line 91: the latitude filter
`typeof lat === 'number' && !isNaN(lat) && Math.abs(lat) <= 90`.
Returns the latitude as a rational exactly when it passes (note that
`Math.abs(±Infinity) <= 90` is false, so only finite numbers pass). -/
def validLat : Json → Option ℚ
  | .num (.fin q) => if |q| ≤ 90 then some q else none
  | _ => none

/-- A validated point record as pushed into the constellation
(`src/app.js` line 94).  The latitude is guaranteed finite and in range
by the filter; longitude and altitude are stored unvalidated. -/
structure Point where
  lat : ℚ
  lon : Json
  alt : Json
  hourIndex : ℕ

/-- Parse one snapshot element (`src/app.js` lines 84–95): extract the
coordinates and keep the point exactly when the latitude is valid. -/
def parseElement (hourIndex : ℕ) (pt : Json) : Option Point :=
  let c := extractCoords pt
  match validLat c.1 with
  | some q => some ⟨q, c.2.1, c.2.2, hourIndex⟩
  | none => none

/-- The track map `constellation`: balloon index (the array position
`balloonIdx`) to list of points, in insertion order.  An absent key is
the empty list. -/
def Constellation : Type := ℕ → List Point

/-- `constellation[balloonIdx].push(point)` (creating the track when
absent). -/
def pushPoint (c : Constellation) (idx : ℕ) (p : Point) : Constellation :=
  fun j => if j = idx then c j ++ [p] else c j

/-- The inner `data.forEach((pt, balloonIdx) => ...)` loop of
`src/app.js` lines 84–96: walk the elements of one hour's array, keeping
each valid point under its positional index and counting accepted
points. -/
def ingestElems (c : Constellation) (valid : ℕ) (hourIndex idx : ℕ) :
    List Json → Constellation × ℕ
  | [] => (c, valid)
  | pt :: rest =>
    match parseElement hourIndex pt with
    | some p => ingestElems (pushPoint c idx p) (valid + 1) hourIndex (idx + 1) rest
    | none => ingestElems c valid hourIndex (idx + 1) rest

/-- The accumulator state of `fetchData`: the constellation map, the
`validPointsCount` tally and the `corruptFiles` tally. -/
structure FetchState where
  constellation : Constellation
  validPoints : ℕ
  corruptFiles : ℕ

/-- An hourly fetch result is corrupt when the fetch/JSON-parse failed
(`null` after the `catch`) or the payload is not an array
(`!data || !Array.isArray(data)`, `src/app.js` line 79; every array is
truthy, every falsy payload is a non-array). -/
def isCorrupt : Option Json → Bool
  | none => true
  | some (.arr _) => false
  | some _ => true

/-- Process one hour's fetch result (`src/app.js` lines 77–97): a corrupt
hour bumps `corruptFiles` and contributes nothing; an array payload is
ingested element by element. -/
def processResponse (st : FetchState) (hourIndex : ℕ) (resp : Option Json) :
    FetchState :=
  match resp with
  | some (.arr xs) =>
    let r := ingestElems st.constellation st.validPoints hourIndex 0 xs
    ⟨r.1, r.2, st.corruptFiles⟩
  | _ => ⟨st.constellation, st.validPoints, st.corruptFiles + 1⟩

/-- `responses.forEach((data, hourIndex) => ...)`: process the fetch
results in order, threading the state. -/
def processAll (st : FetchState) (hourIndex : ℕ) :
    List (Option Json) → FetchState
  | [] => st
  | r :: rs => processAll (processResponse st hourIndex r) (hourIndex + 1) rs

/-- The empty initial state (`constellation = {}`, both counters 0). -/
def initState : FetchState := ⟨fun _ => [], 0, 0⟩

/-- The aggregation core of `fetchData` (`src/app.js` lines 70–97), as a
function of the 24 fetch results (`none` = network/JSON failure). -/
def fetchData (responses : List (Option Json)) : FetchState :=
  processAll initState 0 responses

/-! ## Entity identifiers

`src/app.js` line 93 files every accepted point under the array position
`balloonIdx` of its element; no field of the element is consulted.  The
spec instead describes the identifier as the element's explicit `id`
field when present.  Both policies are stated here so they can be
compared. -/

/-- The key under which the source stores a parsed element
(`src/app.js` lines 93–94): always the positional index `balloonIdx`,
whatever the element contains. -/
def codeAssignedId (_pt : Json) (idx : ℕ) : Json :=
  .num (.fin idx)

/-- The identifier policy stated by the spec (spec refinement
definition, not from the source): the element's explicit `id` field
when present, the positional index only when no `id` is present. -/
def specAssignedId (pt : Json) (idx : ℕ) : Json :=
  match getField pt "id" with
  | .undefined => .num (.fin idx)
  | v => v

/-! ## Haversine distance (`getHaversineDistance`, lines 26–34) -/

open Real in
/-- JavaScript's `Math.atan2(y, x)` on real arguments. -/
noncomputable def atan2 (y x : ℝ) : ℝ :=
  if 0 < x then arctan (y / x)
  else if x < 0 then
    (if 0 ≤ y then arctan (y / x) + π else arctan (y / x) - π)
  else
    (if 0 < y then π / 2 else if y < 0 then -(π / 2) else 0)

open Real in
/-- `getHaversineDistance` (`src/app.js` lines 26–34): great-circle
distance on a sphere of radius `R = 6371` km via the haversine
formula. -/
noncomputable def getHaversineDistance (lat1 lon1 lat2 lon2 : ℝ) : ℝ :=
  let R : ℝ := 6371
  let dLat := (lat2 - lat1) * π / 180
  let dLon := (lon2 - lon1) * π / 180
  let a := sin (dLat / 2) * sin (dLat / 2) +
    cos (lat1 * π / 180) * cos (lat2 * π / 180) * sin (dLon / 2) * sin (dLon / 2)
  let c := 2 * atan2 (Real.sqrt a) (Real.sqrt (1 - a))
  R * c

/-! ## Wind level selection (`getWind`, lines 218–222) -/

/-- The pressure-level selection of `getWind` (`src/app.js` lines
219–222): normalize `alt < 100` from kilometers to meters, then pick
`"200hPa"` above 11000 m, `"500hPa"` above 5000 m, else the surface
level `"10m"`. -/
def getWindLevel (alt : ℚ) : String :=
  let altMeters := if alt < 100 then alt * 1000 else alt
  if altMeters > 11000 then "200hPa"
  else if altMeters > 5000 then "500hPa"
  else "10m"

/-- The level-selection policy as the spec words it (spec refinement
definition, not from the source): normalize by *magnitude*
(`|alt| < 100` means kilometers), then apply the same thresholds. -/
def specWindLevel (alt : ℚ) : String :=
  let altMeters := if |alt| < 100 then alt * 1000 else alt
  if altMeters > 11000 then "200hPa"
  else if altMeters > 5000 then "500hPa"
  else "10m"

/-! ## Fleet analysis (`analyzeFleet`, lines 112–152)

The analysis layer operates on numeric tracks: by line 91 every stored
latitude is a finite number, and the arithmetic of lines 127–137
presumes numeric longitudes, altitudes and wind speeds (a non-numeric
field would float a `NaN` through every score, a degenerate case outside
this embedding).  Points here therefore carry real coordinates, and the
wind fetch of line 132 is an oracle argument `wind lat lon alt`
returning `none` when the `catch` of `getWind` fires. -/

/-- A numeric track point, as consumed by `analyzeFleet`. -/
structure NPoint where
  lat : ℝ
  lon : ℝ
  alt : ℝ
  hourIndex : ℕ

/-- The wind oracle: `getWind(lat, lon, alt)`, `none` when the request
or its parsing fails. -/
def WindOracle : Type := ℝ → ℝ → ℝ → Option ℝ

/-- `track.sort((a, b) => a.hourIndex - b.hourIndex)` (`src/app.js`
line 121): stable sort ascending by hour index. -/
def sortTrack (t : List NPoint) : List NPoint :=
  t.mergeSort (fun a b => a.hourIndex ≤ b.hourIndex)

/-- Is a track active (`src/app.js` line 117):
`track.some(p => p.hourIndex <= 3)`. -/
def isActive (t : List NPoint) : Bool :=
  t.any (fun p => p.hourIndex ≤ 3)

/-- `src/app.js` lines 116–118: the entries analyzed in one pass — the
active tracks of the constellation's entry list, capped at the first
15 (`.slice(0, 15)`). -/
def fleetEntries (entries : List (ℕ × List NPoint)) : List (ℕ × List NPoint) :=
  (entries.filter (fun e => isActive e.2)).take 15

/-- `Math.round` on a real argument: round half toward positive
infinity. -/
noncomputable def jround (x : ℝ) : ℤ :=
  ⌊x + 1 / 2⌋

/-- The correlation score (`src/app.js` lines 136–137):
`Math.max(0, Math.round(100 - diff * 2))` with
`diff = Math.abs(balloonSpeed - wind.speed)`. -/
noncomputable def matchScore (balloonSpeed windSpeed : ℝ) : ℤ :=
  max 0 (jround (100 - |balloonSpeed - windSpeed| * 2))

/-- Velocity estimation (`src/app.js` lines 121–129): sort the track,
take the two most recent points `track[0]`, `track[1]`; `none` when
there is no second point (`if (!prev) return null`).  Speed is the
haversine distance over `Math.max(0.1, prev.hourIndex -
latest.hourIndex)` hours. -/
noncomputable def balloonSpeed (t : List NPoint) : Option ℝ :=
  match sortTrack t with
  | p0 :: p1 :: _ =>
    some (getHaversineDistance p0.lat p0.lon p1.lat p1.lon /
      max 0.1 ((p1.hourIndex : ℝ) - (p0.hourIndex : ℝ)))
  | _ => none

/-- One balloon's score record (`matchScores[id]`, line 140). -/
structure ScoreResult where
  score : ℤ
  windSpeed : ℝ
  speed : ℝ

/-- One iteration of the analysis loop (`src/app.js` lines 120–142):
`none` (no score stored) when the track has fewer than two points or
the wind lookup returns no sample; otherwise the stored score
record. -/
noncomputable def analyzeOne (wind : WindOracle) (t : List NPoint) :
    Option ScoreResult :=
  match sortTrack t with
  | p0 :: p1 :: _ =>
    let dist := getHaversineDistance p0.lat p0.lon p1.lat p1.lon
    let hours := max 0.1 ((p1.hourIndex : ℝ) - (p0.hourIndex : ℝ))
    let speed := dist / hours
    match wind p0.lat p0.lon p0.alt with
    | none => none
    | some w => some ⟨matchScore speed w, w, speed⟩
  | _ => none

/-- The scores stored in `matchScores` by one analysis pass starting
from an empty score map: one entry per analyzed entity that yielded a
score. -/
noncomputable def analyzeFleetScores (wind : WindOracle)
    (entries : List (ℕ × List NPoint)) : List (ℕ × ScoreResult) :=
  (fleetEntries entries).filterMap
    (fun e => (analyzeOne wind e.2).map (fun r => (e.1, r)))

/-- The fleet average (`src/app.js` lines 147–148): the rounded mean of
the stored scores, 0 when there are none. -/
noncomputable def fleetAverage (scores : List ℤ) : ℤ :=
  if scores.length > 0 then jround ((scores.sum : ℝ) / (scores.length : ℝ))
  else 0

/-- The wind lookup issued for a track (`src/app.js` line 132): queried
at the most recent point; no lookup when the track is empty. -/
noncomputable def windAtLatest (wind : WindOracle) (t : List NPoint) :
    Option ℝ :=
  match sortTrack t with
  | p0 :: _ => wind p0.lat p0.lon p0.alt
  | [] => none

/-- The fleet average produced by one analysis pass (`src/app.js`
lines 147–148 applied to the pass's stored scores). -/
noncomputable def passAverage (wind : WindOracle)
    (entries : List (ℕ × List NPoint)) : ℤ :=
  fleetAverage ((analyzeFleetScores wind entries).map (fun r => r.2.score))

/-! ## Helper lemmas -/

theorem jround_eq (n : ℤ) (x : ℝ) (h1 : (n : ℝ) ≤ x + 1 / 2)
    (h2 : x + 1 / 2 < n + 1) : jround x = n :=
  Int.floor_eq_iff.mpr ⟨h1, h2⟩

theorem jround_mono {x y : ℝ} (h : x ≤ y) : jround x ≤ jround y :=
  Int.floor_le_floor (by linarith)

theorem jround_le_of_le {x : ℝ} {n : ℤ} (h : x ≤ (n : ℝ)) : jround x ≤ n := by
  have := jround_mono h
  rwa [jround_eq n (n : ℝ) (by linarith) (by linarith)] at this

theorem matchScore_le_100 (b w : ℝ) : matchScore b w ≤ 100 := by
  have h0 : (0 : ℝ) ≤ |b - w| * 2 := by positivity
  have : jround (100 - |b - w| * 2) ≤ (100 : ℤ) :=
    jround_le_of_le (by push_cast; linarith)
  simp only [matchScore]
  omega

/-! ## Claims -/

/-- **C1.** For every scored entity, the match score equals
`clamp(round(100 − 2·|balloonSpeed − windSpeed|), 0, 100)`; in
particular (50, 50) scores 100, (50, 35) scores 70 and (0, 60) scores 0
(clamped from −20). -/
theorem c1_score_is_clamped_round :
    (∀ b w : ℝ, matchScore b w = max 0 (min 100 (jround (100 - 2 * |b - w|)))) ∧
    matchScore 50 50 = 100 ∧ matchScore 50 35 = 70 ∧ matchScore 0 60 = 0 := by
  have harg : ∀ b w : ℝ, 100 - |b - w| * 2 = 100 - 2 * |b - w| := by
    intro b w; ring
  refine ⟨fun b w => ?_, ?_, ?_, ?_⟩
  · have h0 : (0 : ℝ) ≤ |b - w| := abs_nonneg _
    have hle : jround (100 - 2 * |b - w|) ≤ (100 : ℤ) :=
      jround_le_of_le (by push_cast; linarith)
    simp only [matchScore, harg]
    omega
  · have h : |(50 : ℝ) - 50| * 2 = 0 := by norm_num
    simp only [matchScore, h]
    rw [show (100 : ℝ) - 0 = 100 by norm_num,
      jround_eq 100 100 (by norm_num) (by norm_num)]
    decide
  · have h : (100 : ℝ) - |(50 : ℝ) - 35| * 2 = 70 := by
      rw [show |(50 : ℝ) - 35| = 15 by rw [abs_of_pos] <;> norm_num]
      norm_num
    simp only [matchScore, h]
    rw [jround_eq 70 70 (by norm_num) (by norm_num)]
    decide
  · have h : (100 : ℝ) - |(0 : ℝ) - 60| * 2 = -20 := by
      rw [show |(0 : ℝ) - 60| = 60 by rw [abs_of_neg] <;> norm_num]
      norm_num
    simp only [matchScore, h]
    rw [jround_eq (-20) (-20) (by norm_num) (by norm_num)]
    decide

/-- **C9.** The score is monotonically non-increasing in
`|balloonSpeed − windSpeed|`, always lies in `[0, 100]`, and equals
exactly 100 when the two speeds are equal. -/
theorem c9_score_monotone_bounded :
    (∀ b w b' w' : ℝ, |b - w| ≤ |b' - w'| → matchScore b' w' ≤ matchScore b w) ∧
    (∀ b w : ℝ, 0 ≤ matchScore b w ∧ matchScore b w ≤ 100) ∧
    (∀ b w : ℝ, b = w → matchScore b w = 100) := by
  refine ⟨fun b w b' w' h => ?_, fun b w => ⟨le_max_left _ _, matchScore_le_100 b w⟩,
    fun b w h => ?_⟩
  · have : jround (100 - |b' - w'| * 2) ≤ jround (100 - |b - w| * 2) :=
      jround_mono (by linarith)
    simp only [matchScore]
    omega
  · subst h
    have h0 : |b - b| * 2 = 0 := by simp
    simp only [matchScore, h0]
    rw [show (100 : ℝ) - 0 = 100 by norm_num,
      jround_eq 100 100 (by norm_num) (by norm_num)]
    decide

/-- **C9 witness.** The monotonicity at the concrete speeds
(50, 50) vs (50, 35), and the exact score at equal speeds. -/
theorem c9_score_monotone_bounded_witness :
    matchScore 50 35 ≤ matchScore 50 50 ∧ matchScore 50 50 = 100 :=
  ⟨c9_score_monotone_bounded.1 50 50 50 35 (by norm_num),
    c9_score_monotone_bounded.2.2 50 50 rfl⟩

/-- **C2.** The selected pressure level agrees everywhere with the
spec's description (magnitude-based kilometer normalization followed by
the 11000 m / 5000 m thresholds), and altitude 12 selects the
`200 hPa` level. -/
theorem c2_wind_level_selection :
    (∀ alt : ℚ, getWindLevel alt = specWindLevel alt) ∧
    getWindLevel 12 = "200hPa" := by
  constructor
  · intro a
    rcases abs_cases a with ⟨habs, hsgn⟩ | ⟨habs, hsgn⟩
    · simp only [getWindLevel, specWindLevel, habs]
    · simp only [getWindLevel, specWindLevel, habs]
      by_cases h1 : a < 100
      · by_cases h2 : -a < 100
        · simp only [if_pos h1, if_pos h2]
        · -- a ≤ -100: both normalizations land below every threshold
          have ha : a ≤ -100 := by linarith
          simp only [if_pos h1, if_neg h2]
          rw [if_neg (by linarith), if_neg (by linarith),
            if_neg (by linarith), if_neg (by linarith)]
      · exfalso; linarith
  · simp only [getWindLevel]
    norm_num

/-- **C8.** The haversine distance is symmetric in its two points, and
the distance from a point to itself is 0. -/
theorem c8_haversine_symm_refl :
    (∀ lat1 lon1 lat2 lon2 : ℝ,
      getHaversineDistance lat1 lon1 lat2 lon2 =
        getHaversineDistance lat2 lon2 lat1 lon1) ∧
    (∀ lat lon : ℝ, getHaversineDistance lat lon lat lon = 0) := by
  constructor
  · intro lat1 lon1 lat2 lon2
    have hs : ∀ x y : ℝ, Real.sin ((x - y) * Real.pi / 180 / 2) =
        -Real.sin ((y - x) * Real.pi / 180 / 2) := by
      intro x y
      rw [show (x - y) * Real.pi / 180 / 2 = -((y - x) * Real.pi / 180 / 2) by ring,
        Real.sin_neg]
    have ha : Real.sin ((lat2 - lat1) * Real.pi / 180 / 2) *
          Real.sin ((lat2 - lat1) * Real.pi / 180 / 2) +
        Real.cos (lat1 * Real.pi / 180) * Real.cos (lat2 * Real.pi / 180) *
          Real.sin ((lon2 - lon1) * Real.pi / 180 / 2) *
          Real.sin ((lon2 - lon1) * Real.pi / 180 / 2) =
        Real.sin ((lat1 - lat2) * Real.pi / 180 / 2) *
          Real.sin ((lat1 - lat2) * Real.pi / 180 / 2) +
        Real.cos (lat2 * Real.pi / 180) * Real.cos (lat1 * Real.pi / 180) *
          Real.sin ((lon1 - lon2) * Real.pi / 180 / 2) *
          Real.sin ((lon1 - lon2) * Real.pi / 180 / 2) := by
      rw [hs lat2 lat1, hs lon2 lon1]; ring
    simp only [getHaversineDistance]
    rw [ha]
  · intro lat lon
    simp only [getHaversineDistance, sub_self, zero_mul, zero_div, Real.sin_zero,
      mul_zero, zero_add, add_zero, Real.sqrt_zero, sub_zero, Real.sqrt_one]
    simp only [atan2, zero_div, Real.arctan_zero, if_pos one_pos]
    norm_num

theorem sortTrack_sorted (t : List NPoint) :
    (sortTrack t).Pairwise (fun a b => a.hourIndex ≤ b.hourIndex) := by
  have h := @List.sorted_mergeSort NPoint
    (fun a b => decide (a.hourIndex ≤ b.hourIndex))
    (fun a b c hab hbc => by
      simp only [decide_eq_true_eq] at hab hbc ⊢; omega)
    (fun a b => by
      simp only [Bool.or_eq_true, decide_eq_true_eq]; omega) t
  exact h.imp (fun hab => by simpa using hab)

theorem sortTrack_length (t : List NPoint) :
    (sortTrack t).length = t.length :=
  List.length_mergeSort t

/-- **C3.** For a track with at least two points, the estimated ground
speed is the haversine distance between the two most recent points of
the recency-sorted track, divided by the absolute hour-offset
difference floored at 0.1 hours.  (The source divides by
`prev.hourIndex - latest.hourIndex` without `Math.abs`; sortedness
makes that difference non-negative, so it equals the absolute
difference.) -/
theorem c3_speed_between_two_most_recent (t : List NPoint)
    (h2 : 2 ≤ t.length) :
    ∃ p0 p1 rest, sortTrack t = p0 :: p1 :: rest ∧
      balloonSpeed t = some (getHaversineDistance p0.lat p0.lon p1.lat p1.lon /
        max 0.1 |(p1.hourIndex : ℝ) - (p0.hourIndex : ℝ)|) := by
  rcases hst : sortTrack t with _ | ⟨p0, _ | ⟨p1, rest⟩⟩
  · exfalso
    have hl := sortTrack_length t
    rw [hst] at hl
    simp at hl
    omega
  · exfalso
    have hl := sortTrack_length t
    rw [hst] at hl
    simp at hl
    omega
  · refine ⟨p0, p1, rest, rfl, ?_⟩
    have hord : p0.hourIndex ≤ p1.hourIndex := by
      have hs := sortTrack_sorted t
      rw [hst] at hs
      exact (List.pairwise_cons.mp hs).1 p1 (by simp)
    have habs : |(p1.hourIndex : ℝ) - (p0.hourIndex : ℝ)| =
        (p1.hourIndex : ℝ) - (p0.hourIndex : ℝ) :=
      abs_of_nonneg (sub_nonneg.mpr (by exact_mod_cast hord))
    simp only [balloonSpeed, hst, habs]

/-- **C3 witness.** The estimator applied to a concrete two-point
track. -/
theorem c3_speed_between_two_most_recent_witness :
    2 ≤ ([⟨0, 0, 0, 1⟩, ⟨1, 1, 0, 0⟩] : List NPoint).length ∧
    ∃ p0 p1 rest,
      sortTrack [⟨0, 0, 0, 1⟩, ⟨1, 1, 0, 0⟩] = p0 :: p1 :: rest ∧
      balloonSpeed [⟨0, 0, 0, 1⟩, ⟨1, 1, 0, 0⟩] =
        some (getHaversineDistance p0.lat p0.lon p1.lat p1.lon /
          max 0.1 |(p1.hourIndex : ℝ) - (p0.hourIndex : ℝ)|) :=
  ⟨by simp, c3_speed_between_two_most_recent _ (by simp)⟩

theorem length_filterMap_isSome {α β : Type} (f : α → Option β) (l : List α) :
    (l.filterMap f).length = (l.filter (fun a => (f a).isSome)).length := by
  induction l with
  | nil => rfl
  | cons a l ih => cases hfa : f a <;> simp [List.filterMap_cons, hfa, ih]

/-- **C6.** An entity whose track has fewer than two points, or whose
wind lookup returns no sample, receives no score and hence is absent
from the stored scores (so not averaged as 0): the average's
denominator counts only the entries that produced a score, and the
fleet average is the rounded arithmetic mean of those scores, 0 when
there are none. -/
theorem c6_insufficient_data_excluded (wind : WindOracle)
    (entries : List (ℕ × List NPoint)) (t : List NPoint)
    (h : t.length < 2 ∨ windAtLatest wind t = none) :
    analyzeOne wind t = none ∧
    (analyzeFleetScores wind entries).length =
      ((fleetEntries entries).filter
        (fun e => (analyzeOne wind e.2).isSome)).length ∧
    (0 < (analyzeFleetScores wind entries).length →
      passAverage wind entries =
        jround (((((analyzeFleetScores wind entries).map
            (fun r => r.2.score)).sum : ℤ) : ℝ) /
          ((analyzeFleetScores wind entries).length : ℝ))) ∧
    ((analyzeFleetScores wind entries).length = 0 →
      passAverage wind entries = 0) := by
  refine ⟨?_, ?_, ?_, ?_⟩
  · rcases hst : sortTrack t with _ | ⟨p0, _ | ⟨p1, rest⟩⟩
    · simp only [analyzeOne, hst]
    · simp only [analyzeOne, hst]
    · rcases h with h | h
      · exfalso
        have hl := sortTrack_length t
        rw [hst] at hl
        simp at hl
        omega
      · simp only [windAtLatest, hst] at h
        simp only [analyzeOne, hst, h]
  · rw [analyzeFleetScores, length_filterMap_isSome]
    congr 1
    apply List.filter_congr
    intro e _
    cases analyzeOne wind e.2 <;> rfl
  · intro hpos
    simp only [passAverage, fleetAverage, List.length_map]
    rw [if_pos hpos]
  · intro h0
    simp only [passAverage, fleetAverage, List.length_map, h0]
    rfl

/-- **C6 witness.** The exclusion and average at concrete degenerate
inputs (empty track, failing wind oracle, empty constellation). -/
theorem c6_insufficient_data_excluded_witness :
    (([] : List NPoint).length < 2 ∨
      windAtLatest (fun _ _ _ => none) [] = none) ∧
    (analyzeOne (fun _ _ _ => none) [] = none ∧
      (analyzeFleetScores (fun _ _ _ => none) []).length =
        ((fleetEntries []).filter
          (fun e => (analyzeOne (fun _ _ _ => none) e.2).isSome)).length ∧
      (0 < (analyzeFleetScores (fun _ _ _ => none) []).length →
        passAverage (fun _ _ _ => none) [] =
          jround (((((analyzeFleetScores (fun _ _ _ => none) []).map
              (fun r => r.2.score)).sum : ℤ) : ℝ) /
            ((analyzeFleetScores (fun _ _ _ => none) []).length : ℝ))) ∧
      ((analyzeFleetScores (fun _ _ _ => none) []).length = 0 →
        passAverage (fun _ _ _ => none) [] = 0)) :=
  ⟨Or.inl (by simp),
    c6_insufficient_data_excluded (fun _ _ _ => none) [] [] (Or.inl (by simp))⟩

/-- **C10.** Only the first 15 active tracks (in the constellation's
entry-enumeration order) are analyzed: an active entity sitting at
position ≥ 15 of the filtered entry list is excluded from the analyzed
entries (hence from scoring, the fleet average, and rendering, which
all draw from `fleetEntries`), although it remains in the entry
list. -/
theorem c10_only_first_15_analyzed (entries : List (ℕ × List NPoint))
    (wind : WindOracle) (k : ℕ) (t : List NPoint) (i : ℕ)
    (hnd : (entries.map Prod.fst).Nodup)
    (hi : (entries.filter (fun e => isActive e.2))[i]? = some (k, t))
    (h15 : 15 ≤ i) :
    (k, t) ∈ entries ∧ isActive t = true ∧ (k, t) ∉ fleetEntries entries ∧
    ∀ r ∈ analyzeFleetScores wind entries, r.1 ≠ k := by
  obtain ⟨hlen, hget⟩ := List.getElem?_eq_some_iff.mp hi
  have hmemF : (k, t) ∈ entries.filter (fun e => isActive e.2) := by
    rw [← hget]
    exact List.getElem_mem hlen
  have hmem : (k, t) ∈ entries := List.mem_of_mem_filter hmemF
  have hact : isActive t = true := by simpa using List.of_mem_filter hmemF
  have hndE : entries.Nodup := List.Nodup.of_map Prod.fst hnd
  have hndF : (entries.filter (fun e => isActive e.2)).Nodup :=
    List.Nodup.sublist (List.filter_sublist entries) hndE
  have hnotin : (k, t) ∉ fleetEntries entries := by
    intro hmemT
    rw [fleetEntries] at hmemT
    obtain ⟨j, hj, hgetj⟩ := List.mem_iff_getElem.mp hmemT
    have hj' := hj
    rw [List.length_take] at hj'
    have hj15 : j < 15 := lt_of_lt_of_le hj' (min_le_left _ _)
    have hjF : j < (entries.filter (fun e => isActive e.2)).length :=
      lt_of_lt_of_le hj' (min_le_right _ _)
    have hFj : (entries.filter (fun e => isActive e.2))[j] = (k, t) := by
      rw [← List.getElem_take (entries.filter (fun e => isActive e.2))]
      exact hgetj
    have : j = i := (List.Nodup.getElem_inj_iff hndF).mp (hFj.trans hget.symm)
    omega
  refine ⟨hmem, hact, hnotin, ?_⟩
  intro r hr hrk
  rw [analyzeFleetScores] at hr
  obtain ⟨e, heMem, heEq⟩ := List.mem_filterMap.mp hr
  obtain ⟨s, _, hse⟩ := Option.map_eq_some'.mp heEq
  have hr1 : r.1 = e.1 := by rw [← hse]
  have heEntries : e ∈ entries :=
    List.mem_of_mem_filter (List.mem_of_mem_take heMem)
  have he : e = (k, t) :=
    List.inj_on_of_nodup_map hnd heEntries hmem (by rw [← hr1, hrk])
  rw [he] at heMem
  exact hnotin heMem

/-- **C10 witness.** A constellation of 16 active single-point tracks:
the sixteenth (key 15, filtered position 15) is excluded from the
analyzed entries though still present in the entry list. -/
theorem c10_only_first_15_analyzed_witness :
    ((((List.range 16).map
        (fun n => (n, [(⟨0, 0, 0, 0⟩ : NPoint)]))).map Prod.fst).Nodup ∧
      (((List.range 16).map
        (fun n => (n, [(⟨0, 0, 0, 0⟩ : NPoint)]))).filter
          (fun e => isActive e.2))[15]? =
        some (15, [(⟨0, 0, 0, 0⟩ : NPoint)]) ∧
      15 ≤ 15) ∧
    ((15, [(⟨0, 0, 0, 0⟩ : NPoint)]) ∈
        (List.range 16).map (fun n => (n, [(⟨0, 0, 0, 0⟩ : NPoint)])) ∧
      isActive [(⟨0, 0, 0, 0⟩ : NPoint)] = true ∧
      (15, [(⟨0, 0, 0, 0⟩ : NPoint)]) ∉
        fleetEntries ((List.range 16).map
          (fun n => (n, [(⟨0, 0, 0, 0⟩ : NPoint)]))) ∧
      ∀ r ∈ analyzeFleetScores (fun _ _ _ => none)
          ((List.range 16).map (fun n => (n, [(⟨0, 0, 0, 0⟩ : NPoint)]))),
        r.1 ≠ 15) := by
  have hnd : (((List.range 16).map
      (fun n => (n, [(⟨0, 0, 0, 0⟩ : NPoint)]))).map Prod.fst).Nodup := by
    simp [List.map_map, Function.comp_def, List.nodup_range]
  have hi : ((((List.range 16).map
      (fun n => (n, [(⟨0, 0, 0, 0⟩ : NPoint)]))).filter
        (fun e => isActive e.2)))[15]? =
      some (15, [(⟨0, 0, 0, 0⟩ : NPoint)]) := rfl
  exact ⟨⟨hnd, hi, le_refl 15⟩,
    c10_only_first_15_analyzed _ (fun _ _ _ => none) 15 _ 15 hnd hi (le_refl 15)⟩

theorem ingest_constellation (xs : List Json) :
    ∀ (c : Constellation) (v hidx idx j : ℕ),
      ((ingestElems c v hidx idx xs).1) j =
        c j ++ (if idx ≤ j then ((xs[j - idx]?).bind (parseElement hidx)).toList
          else []) := by
  induction xs with
  | nil =>
    intro c v hidx idx j
    simp [ingestElems]
  | cons pt rest ih =>
    intro c v hidx idx j
    rcases Nat.lt_trichotomy j idx with hlt | heq | hgt
    · -- j < idx: this element and all later ones land at keys ≥ idx
      have h1 : ¬ idx ≤ j := by omega
      have h2 : ¬ idx + 1 ≤ j := by omega
      cases hp : parseElement hidx pt with
      | some p =>
        simp only [ingestElems, hp]
        rw [ih, if_neg h2, if_neg h1, pushPoint, if_neg (by omega)]
      | none =>
        simp only [ingestElems, hp]
        rw [ih, if_neg h2, if_neg h1]
    · -- j = idx: exactly this element contributes to key j
      subst heq
      have h2 : ¬ j + 1 ≤ j := by omega
      cases hp : parseElement hidx pt with
      | some p =>
        simp only [ingestElems, hp]
        rw [ih, if_neg h2, if_pos (le_refl j), Nat.sub_self]
        simp [pushPoint, hp]
      | none =>
        simp only [ingestElems, hp]
        rw [ih, if_neg h2, if_pos (le_refl j), Nat.sub_self]
        simp [hp]
    · -- idx < j: the element at position j - idx of the tail contributes
      have h1 : idx ≤ j := by omega
      have h2 : idx + 1 ≤ j := by omega
      obtain ⟨d, hd⟩ : ∃ d, j - idx = d + 1 := ⟨j - idx - 1, by omega⟩
      have hd' : j - (idx + 1) = d := by omega
      cases hp : parseElement hidx pt with
      | some p =>
        simp only [ingestElems, hp]
        rw [ih, if_pos h2, if_pos h1, hd, hd', pushPoint, if_neg (by omega)]
        simp
      | none =>
        simp only [ingestElems, hp]
        rw [ih, if_pos h2, if_pos h1, hd, hd']
        simp

theorem ingest_validCount (xs : List Json) :
    ∀ (c : Constellation) (v hidx idx : ℕ),
      (ingestElems c v hidx idx xs).2 =
        v + (xs.filterMap (parseElement hidx)).length := by
  induction xs with
  | nil => intro c v hidx idx; simp [ingestElems]
  | cons pt rest ih =>
    intro c v hidx idx
    cases hp : parseElement hidx pt with
    | some p =>
      simp only [ingestElems, hp, List.filterMap_cons]
      rw [ih]
      simp
      omega
    | none =>
      simp only [ingestElems, hp, List.filterMap_cons]
      rw [ih]

theorem validLat_isSome_iff (v : Json) :
    (validLat v).isSome = true ↔ ∃ q : ℚ, v = .num (.fin q) ∧ |q| ≤ 90 := by
  cases v with
  | num n =>
    cases n with
    | fin q =>
      by_cases h : |q| ≤ 90 <;> simp [validLat, h]
    | nan => simp [validLat]
    | inf => simp [validLat]
    | ninf => simp [validLat]
  | undefined => simp [validLat]
  | null => simp [validLat]
  | bool b => simp [validLat]
  | str s => simp [validLat]
  | arr xs => simp [validLat]
  | obj fs => simp [validLat]

theorem parseElement_isSome (hidx : ℕ) (pt : Json) :
    (parseElement hidx pt).isSome = (validLat (extractCoords pt).1).isSome := by
  simp only [parseElement]
  cases validLat (extractCoords pt).1 <;> rfl

/-- **C7.** A snapshot element is dropped exactly when its extracted
latitude is not a finite number or its absolute value exceeds 90; any
longitude value whatsoever is accepted alongside a valid latitude (in
both wire shapes); and each element's contribution to the hour is
independent of the other elements — key `j` of the constellation
receives exactly the parse of element `j`, dropped or not. -/
theorem c7_lat_only_validation :
    (∀ (hidx : ℕ) (pt : Json), (parseElement hidx pt).isSome = true ↔
      ∃ q : ℚ, (extractCoords pt).1 = .num (.fin q) ∧ |q| ≤ 90) ∧
    (∀ (hidx : ℕ) (q : ℚ) (lonv altv : Json), |q| ≤ 90 →
      parseElement hidx (.arr [.num (.fin q), lonv, altv]) =
        some ⟨q, lonv, altv, hidx⟩) ∧
    (∀ (hidx : ℕ) (q : ℚ) (lonv altv : Json), |q| ≤ 90 →
      parseElement hidx (.obj [("lat", .num (.fin q)), ("lon", lonv),
        ("alt", altv)]) = some ⟨q, lonv, altv, hidx⟩) ∧
    (∀ (xs : List Json) (c : Constellation) (v hidx j : ℕ),
      ((ingestElems c v hidx 0 xs).1) j =
        c j ++ ((xs[j]?.bind (parseElement hidx)).toList)) := by
  refine ⟨fun hidx pt => ?_, fun hidx q lonv altv h => ?_,
    fun hidx q lonv altv h => ?_, fun xs c v hidx j => ?_⟩
  · rw [parseElement_isSome, validLat_isSome_iff]
  · simp [parseElement, extractCoords, slot, validLat, h]
  · simp [parseElement, extractCoords, getField, Json.truthy, validLat, h,
      List.find?]
  · rw [ingest_constellation, if_pos (Nat.zero_le j), Nat.sub_zero]

/-- **C7 witness.** A concrete element with a string longitude and null
altitude is accepted because its latitude is valid. -/
theorem c7_lat_only_validation_witness :
    |(10 : ℚ)| ≤ 90 ∧
    parseElement 0 (.arr [.num (.fin 10), .str "garbage", .null]) =
      some ⟨10, .str "garbage", .null, 0⟩ :=
  ⟨by norm_num,
    c7_lat_only_validation.2.1 0 10 (.str "garbage") .null (by norm_num)⟩

/-- **C4 counterexample.** An element carrying the explicit id `"A"` at
position 0: the spec's claimed identifier is `"A"`, but the source keys
the point by the positional index 0 — the parsed point lands in track 0
of the constellation, and `"A"` is not the assigned key. -/
theorem c4_counterexample :
    specAssignedId (.obj [("id", .str "A"), ("lat", .num (.fin 10)),
      ("lon", .num (.fin 20)), ("alt", .num (.fin 1))]) 0 = .str "A" ∧
    codeAssignedId (.obj [("id", .str "A"), ("lat", .num (.fin 10)),
      ("lon", .num (.fin 20)), ("alt", .num (.fin 1))]) 0 = .num (.fin 0) ∧
    Json.str "A" ≠ Json.num (.fin 0) ∧
    ((ingestElems (fun _ => []) 0 5 0 [.obj [("id", .str "A"),
      ("lat", .num (.fin 10)), ("lon", .num (.fin 20)),
      ("alt", .num (.fin 1))]]).1) 0 =
      [⟨10, .num (.fin 20), .num (.fin 1), 5⟩] := by
  refine ⟨rfl, rfl, fun h => Json.noConfusion h, ?_⟩
  simp [ingestElems, parseElement, extractCoords, getField, Json.truthy,
    validLat, pushPoint, List.find?, show (10 : ℚ) ≤ 90 by norm_num]

/-- **C4 (amended).** The identifier assigned by the parser is always
the element's positional index within the snapshot array — any `id`
field is ignored: the source's assignment is the constant `balloonIdx`,
and constellation key `j` receives exactly the parse of the element at
position `j` of the hour's payload. -/
theorem c4_identifier_always_positional :
    (∀ (pt : Json) (idx : ℕ), codeAssignedId pt idx = .num (.fin idx)) ∧
    (∀ (xs : List Json) (c : Constellation) (v hidx j : ℕ),
      ((ingestElems c v hidx 0 xs).1) j =
        c j ++ ((xs[j]?.bind (parseElement hidx)).toList)) := by
  refine ⟨fun pt idx => rfl, fun xs c v hidx j => ?_⟩
  rw [ingest_constellation, if_pos (Nat.zero_le j), Nat.sub_zero]

theorem processResponse_corrupt (st : FetchState) (hidx : ℕ)
    (resp : Option Json) (hc : isCorrupt resp = true) :
    processResponse st hidx resp =
      ⟨st.constellation, st.validPoints, st.corruptFiles + 1⟩ := by
  cases resp with
  | none => rfl
  | some j => cases j <;> first | rfl | simp [isCorrupt] at hc

theorem processAll_corrupt_count (rs : List (Option Json)) :
    ∀ (st : FetchState) (hidx : ℕ),
      (processAll st hidx rs).corruptFiles =
        st.corruptFiles + (rs.filter isCorrupt).length := by
  induction rs with
  | nil => intro st hidx; simp [processAll]
  | cons r rest ih =>
    intro st hidx
    simp only [processAll]
    rw [ih]
    cases hr : isCorrupt r with
    | true =>
      rw [processResponse_corrupt st hidx r hr]
      simp [List.filter_cons, hr]
      omega
    | false =>
      obtain ⟨xs, rfl⟩ : ∃ xs, r = some (.arr xs) := by
        cases r with
        | none => simp [isCorrupt] at hr
        | some j => cases j <;> first | exact ⟨_, rfl⟩ | simp [isCorrupt] at hr
      simp [processResponse, List.filter_cons, hr]

theorem processAll_same_cv (rs : List (Option Json)) :
    ∀ (st1 st2 : FetchState) (hidx : ℕ),
      st1.constellation = st2.constellation →
      st1.validPoints = st2.validPoints →
      (processAll st1 hidx rs).constellation =
        (processAll st2 hidx rs).constellation ∧
      (processAll st1 hidx rs).validPoints =
        (processAll st2 hidx rs).validPoints := by
  induction rs with
  | nil => intro st1 st2 hidx hc hv; exact ⟨hc, hv⟩
  | cons r rest ih =>
    intro st1 st2 hidx hc hv
    simp only [processAll]
    have hstep : (processResponse st1 hidx r).constellation =
        (processResponse st2 hidx r).constellation ∧
        (processResponse st1 hidx r).validPoints =
          (processResponse st2 hidx r).validPoints := by
      cases r with
      | none => exact ⟨hc, hv⟩
      | some j => cases j <;> simp [processResponse, hc, hv]
    exact ih _ _ _ hstep.1 hstep.2

theorem processAll_set_repair (rs : List (Option Json)) :
    ∀ (j : ℕ) (resp : Option Json) (st : FetchState) (hidx : ℕ),
      rs[j]? = some resp → isCorrupt resp = true →
      (processAll st hidx (rs.set j (some (.arr [])))).constellation =
        (processAll st hidx rs).constellation ∧
      (processAll st hidx (rs.set j (some (.arr [])))).validPoints =
        (processAll st hidx rs).validPoints := by
  induction rs with
  | nil => intro j resp st hidx hg; simp at hg
  | cons r rest ih =>
    intro j resp st hidx hg hc
    cases j with
    | zero =>
      simp only [List.getElem?_cons_zero, Option.some_inj] at hg
      subst hg
      rw [List.set_cons_zero]
      simp only [processAll]
      refine processAll_same_cv rest _ _ _ ?_ ?_ <;>
        rw [processResponse_corrupt st hidx r hc] <;> rfl
    | succ n =>
      simp only [List.getElem?_cons_succ] at hg
      rw [List.set_cons_succ]
      simp only [processAll]
      exact ih n resp _ _ hg hc

theorem filter_set_corrupt (rs : List (Option Json)) :
    ∀ (j : ℕ) (resp : Option Json),
      rs[j]? = some resp → isCorrupt resp = true →
      ((rs.set j (some (.arr []))).filter isCorrupt).length + 1 =
        (rs.filter isCorrupt).length := by
  induction rs with
  | nil => intro j resp hg; simp at hg
  | cons r rest ih =>
    intro j resp hg hc
    cases j with
    | zero =>
      simp only [List.getElem?_cons_zero, Option.some_inj] at hg
      subst hg
      rw [List.set_cons_zero]
      simp [List.filter_cons, hc, show isCorrupt (some (.arr [])) = false from rfl]
    | succ n =>
      simp only [List.getElem?_cons_succ] at hg
      rw [List.set_cons_succ]
      simp only [List.filter_cons]
      have := ih n resp hg hc
      cases isCorrupt r <;> simp <;> omega

/-- **C5.** A corrupt hour (failed fetch or non-array payload) is
tallied — the corrupt-file count is exactly the number of corrupt hours
and is positive here — and contributes zero records: replacing the
corrupt hour by an empty (valid) payload leaves the whole constellation
and the valid-point count unchanged, and lowers the corrupt count by
exactly one.  All model functions are total, so no failure propagates
to the caller. -/
theorem c5_corrupt_hour_isolated (responses : List (Option Json)) (h : ℕ)
    (resp : Option Json) (hg : responses[h]? = some resp)
    (hc : isCorrupt resp = true) :
    (fetchData responses).corruptFiles =
      (responses.filter isCorrupt).length ∧
    0 < (responses.filter isCorrupt).length ∧
    (fetchData (responses.set h (some (.arr [])))).constellation =
      (fetchData responses).constellation ∧
    (fetchData (responses.set h (some (.arr [])))).validPoints =
      (fetchData responses).validPoints ∧
    (fetchData (responses.set h (some (.arr [])))).corruptFiles + 1 =
      (fetchData responses).corruptFiles := by
  have hmem : resp ∈ responses := by
    obtain ⟨hlen, hget⟩ := List.getElem?_eq_some_iff.mp hg
    rw [← hget]
    exact List.getElem_mem hlen
  refine ⟨?_, ?_, ?_, ?_, ?_⟩
  · rw [fetchData, processAll_corrupt_count]
    simp [initState]
  · exact List.length_pos.mpr
      (List.ne_nil_of_mem (List.mem_filter.mpr ⟨hmem, hc⟩))
  · exact (processAll_set_repair responses h resp initState 0 hg hc).1
  · exact (processAll_set_repair responses h resp initState 0 hg hc).2
  · rw [fetchData, fetchData, processAll_corrupt_count,
      processAll_corrupt_count]
    have := filter_set_corrupt responses h resp hg hc
    simp only [initState]
    omega

/-- **C5 witness.** A single-hour run whose only fetch failed. -/
theorem c5_corrupt_hour_isolated_witness :
    (([none] : List (Option Json))[0]? = some none ∧
      isCorrupt none = true) ∧
    ((fetchData [none]).corruptFiles =
        (([none] : List (Option Json)).filter isCorrupt).length ∧
      0 < (([none] : List (Option Json)).filter isCorrupt).length ∧
      (fetchData (([none] : List (Option Json)).set 0
          (some (.arr [])))).constellation =
        (fetchData [none]).constellation ∧
      (fetchData (([none] : List (Option Json)).set 0
          (some (.arr [])))).validPoints =
        (fetchData [none]).validPoints ∧
      (fetchData (([none] : List (Option Json)).set 0
          (some (.arr [])))).corruptFiles + 1 =
        (fetchData [none]).corruptFiles) :=
  ⟨⟨rfl, rfl⟩, c5_corrupt_hour_isolated [none] 0 none rfl rfl⟩

end Windborne
